import Mathlib

/-
Verification of the AIDEA-to-PyNite structural-model translator.

This file gives a shallow embedding of the translation layer
(`aidea_to_pynite_translator.py`) over the AIDEA data model
(`aidea_model.py`), and proves properties of the translation.

Modelling conventions:
* Python floats are modelled as exact rationals (ℚ); the one place the
  code takes a square root (member length for distributed loads) is
  modelled over ℝ with `Real.sqrt`.
* Python dicts keyed by strings are modelled as association lists
  `List (String × α)` in insertion order; dict lookup is `List.lookup`.
* Calls into the external PyNite solver (`add_material`, `add_quad`,
  `add_node_load`, ...) are modelled as emitted call records.
* A Python exception escaping a translation pass is modelled by the pass
  returning `none`; `print`-ed diagnostics are modelled by a `Warning`
  value in the second component of the result.
* Python truthiness of `str | None` values (`if point_load.node:`,
  `if plate_name:`) is `false` exactly for `None` and the empty string.
-/

/-- A node: three coordinates (class `Node` in `aidea_model.py`). -/
structure ANode where
  x : ℚ
  y : ℚ
  z : ℚ
deriving DecidableEq

/-- A material (class `Material` in `aidea_model.py`); fields not read by
the translator are omitted. -/
structure AMaterial where
  name : String
  elasticity_modulus : ℚ
  shear_modulus : Option ℚ
  density : ℚ
  poissons_ratio : ℚ
  yield_strength : Option ℚ
deriving DecidableEq

/-- A member (class `Member` in `aidea_model.py`); fields not read by the
translator are omitted. -/
structure AMember where
  node_A : Int
  node_B : Int
  section_id : Int
  rotation_angle : Int
  fixity_A : String
  fixity_B : String
deriving DecidableEq

/-- A plate (class `Plate` in `aidea_model.py`). -/
structure APlate where
  nodes : List Int
  material_id : Int
  thickness : ℚ
deriving DecidableEq

/-- A support (class `Support` in `aidea_model.py`); the spring-stiffness
fields are not read by the translator and are omitted. -/
structure ASupport where
  node : Int
  restraint_code : String
deriving DecidableEq

/-- The `type` tag of a point load: `Literal['n', 'm']`. -/
inductive PointLoadType
  | n
  | m
deriving DecidableEq

/-- A point load (class `PointLoad` in `aidea_model.py`).  `node` and
`member` are `str | None` in the source. -/
structure APointLoad where
  load_group : String
  type : PointLoadType
  node : Option String
  member : Option String
  x_mag : ℚ
  y_mag : ℚ
  z_mag : ℚ
deriving DecidableEq

/-- The axis-frame tag `Literal["global", "local"]`. -/
inductive AxesTag
  | globalAxes
  | localAxes
deriving DecidableEq

/-- A distributed load (class `DistributedLoad` in `aidea_model.py`).
The `member` field is `int | str` in the source and the translator
immediately applies `str(...)` to it, so it is modelled as the resulting
string. -/
structure ADistributedLoad where
  load_group : String
  axes : AxesTag
  member : String
  x_mag_A : ℚ
  y_mag_A : ℚ
  z_mag_A : ℚ
  x_mag_B : ℚ
  y_mag_B : ℚ
  z_mag_B : ℚ
  position_A : ℚ
  position_B : ℚ
deriving DecidableEq

/-- A pressure (area) load (class `Pressure` in `aidea_model.py`). -/
structure APressure where
  load_group : String
  plate_id : Int
  x_mag : ℚ
  y_mag : ℚ
  z_mag : ℚ
deriving DecidableEq

/-- A value stored in a pydantic model field: the translator only moves
these around, so strings and numbers suffice. -/
inductive PyValue
  | str (s : String)
  | num (q : ℚ)
deriving DecidableEq

/-- A load combination (class `LoadCombination` in `aidea_model.py`):
two declared fields `name` and `criteria` plus arbitrary extra fields
(`model_config = {"extra": "allow"}`), kept in insertion order. -/
structure ALoadCombination where
  name : String
  criteria : String
  extra : List (String × PyValue)
deriving DecidableEq

/-- Pydantic v2 `model_dump()` on a `LoadCombination`: the declared
fields first, then the extra fields in insertion order. -/
def ALoadCombination.model_dump (c : ALoadCombination) : List (String × PyValue) :=
  ("name", .str c.name) :: ("criteria", .str c.criteria) :: c.extra

/-- A diagnostic printed (not raised) by the translator. -/
inductive Warning
  | plate (plate_id : String) (node_count : Nat)
  | missingMember (member_name : String) (load_id : String)
  | missingPlate (load_id : String) (plate_id : Int)
deriving DecidableEq

/- ===== Materials (`_translate_materials`) ===== -/

/-- One `add_material` call on the external solver. -/
structure AddMaterialCall where
  name : String
  E : ℚ
  G : ℚ
  nu : ℚ
  rho : ℚ
  fy : Option ℚ
deriving DecidableEq

/-- Python `x or y` for `x : float | None`: `x` unless `x` is falsy
(`None` or `0.0`), in which case `y`. -/
def pyOrQ (x : Option ℚ) (y : ℚ) : ℚ :=
  match x with
  | none => y
  | some v => if v = 0 then y else v

/-- Model of `_translate_materials`: one `add_material` call per material, with
`G = material.shear_modulus or (E / (2 * (1 + material.poissons_ratio)))`. -/
def translate_materials (mats : List (String × AMaterial)) : List AddMaterialCall :=
  mats.map (fun p =>
    ⟨p.1, p.2.elasticity_modulus,
      pyOrQ p.2.shear_modulus (p.2.elasticity_modulus / (2 * (1 + p.2.poissons_ratio))),
      p.2.poissons_ratio, p.2.density, p.2.yield_strength⟩)

/- ===== Supports (`_translate_supports`, `_parse_restraint_code`) ===== -/

/-- The six per-DOF restraint flags passed to `def_support`. -/
structure Restraints where
  DX : Bool
  DY : Bool
  DZ : Bool
  RX : Bool
  RY : Bool
  RZ : Bool
deriving DecidableEq

/-- Model of `_parse_restraint_code`: indexes characters 0–5 of the code with no
length check, comparing each (upper-cased) to `'T'`.  A code shorter
than 6 characters raises `IndexError`, modelled as `none`. -/
def parse_restraint_code (code : String) : Option Restraints :=
  match code.toList with
  | c0 :: c1 :: c2 :: c3 :: c4 :: c5 :: _ =>
      some ⟨c0.toUpper == 'T', c1.toUpper == 'T', c2.toUpper == 'T',
            c3.toUpper == 'T', c4.toUpper == 'T', c5.toUpper == 'T'⟩
  | _ => none

/-- One `def_support` call on the external solver. -/
structure DefSupportCall where
  node_name : String
  restraints : Restraints
deriving DecidableEq

/-- Model of `_translate_supports`: decode each support's restraint code and
register it on `str(support.node)`.  An `IndexError` from
`_parse_restraint_code` aborts the whole pass (`none`). -/
def translate_supports : List (String × ASupport) → Option (List DefSupportCall)
  | [] => some []
  | (_, s) :: rest =>
    match parse_restraint_code s.restraint_code with
    | none => none
    | some r =>
      match translate_supports rest with
      | none => none
      | some calls => some (⟨toString s.node, r⟩ :: calls)

/- ===== Member end releases (`_parse_fixity`) ===== -/

/-- Model of `_parse_fixity`: for a fixity string of length at least 6, a release
mapping with keys `Dx`+end .. `Rz`+end, released iff the character
(upper-cased) is `'R'`; for a shorter string, the empty mapping. -/
def parse_fixity (fixity : String) (e : String) : List (String × Bool) :=
  match fixity.toList with
  | c0 :: c1 :: c2 :: c3 :: c4 :: c5 :: _ =>
      [("Dx" ++ e, c0.toUpper == 'R'), ("Dy" ++ e, c1.toUpper == 'R'),
       ("Dz" ++ e, c2.toUpper == 'R'), ("Rx" ++ e, c3.toUpper == 'R'),
       ("Ry" ++ e, c4.toUpper == 'R'), ("Rz" ++ e, c5.toUpper == 'R')]
  | _ => []

/- ===== Plates (`_translate_plates`) ===== -/

/-- One `add_quad` call on the external solver. -/
structure AddQuadCall where
  name : String
  i_node : String
  j_node : String
  m_node : String
  n_node : String
  t : ℚ
  material_name : String
deriving DecidableEq

/-- Model of `_translate_plates`: a plate whose node-name list has exactly 4
entries becomes one `add_quad` call with the nodes in listed order; any
other count is reported with a warning and skipped. -/
def translate_plates : List (String × APlate) → List AddQuadCall × List Warning
  | [] => ([], [])
  | (pid, p) :: rest =>
    if h : (p.nodes.map toString).length = 4 then
      (⟨pid, (p.nodes.map toString).get ⟨0, by omega⟩,
        (p.nodes.map toString).get ⟨1, by omega⟩,
        (p.nodes.map toString).get ⟨2, by omega⟩,
        (p.nodes.map toString).get ⟨3, by omega⟩,
        p.thickness, toString p.material_id⟩ :: (translate_plates rest).1,
       (translate_plates rest).2)
    else ((translate_plates rest).1,
      .plate pid (p.nodes.map toString).length :: (translate_plates rest).2)

/- ===== Point loads (first block of `_translate_loads`) ===== -/

/-- One `add_node_load` call on the external solver. -/
structure AddNodeLoadCall where
  node_name : String
  direction : String
  P : ℚ
  case_ : String
deriving DecidableEq

/-- Python truthiness of a `str | None` value: falsy iff `None` or `""`. -/
def pyTruthyStr : Option String → Bool
  | none => false
  | some s => s ≠ ""

/-- The point-load block of `_translate_loads` for one load: if the
load's `node` is truthy, one `add_node_load` per nonzero magnitude
component, with force (`F_`) or moment (`M_`) directions per the `type`
tag; otherwise nothing. -/
def translate_point_load (pl : APointLoad) : List AddNodeLoadCall :=
  match pl.node with
  | none => []
  | some node =>
    if node = "" then []
    else
      match pl.type with
      | .n =>
        (if pl.x_mag ≠ 0 then [⟨node, "FX", pl.x_mag, pl.load_group⟩] else []) ++
        (if pl.y_mag ≠ 0 then [⟨node, "FY", pl.y_mag, pl.load_group⟩] else []) ++
        (if pl.z_mag ≠ 0 then [⟨node, "FZ", pl.z_mag, pl.load_group⟩] else [])
      | .m =>
        (if pl.x_mag ≠ 0 then [⟨node, "MX", pl.x_mag, pl.load_group⟩] else []) ++
        (if pl.y_mag ≠ 0 then [⟨node, "MY", pl.y_mag, pl.load_group⟩] else []) ++
        (if pl.z_mag ≠ 0 then [⟨node, "MZ", pl.z_mag, pl.load_group⟩] else [])

/-- The point-load loop of `_translate_loads`: the loop body contains no
diagnostic or error path, so the warning component is always empty. -/
def translate_point_loads : List (String × APointLoad) → List AddNodeLoadCall × List Warning
  | [] => ([], [])
  | (_, pl) :: rest =>
    let r := translate_point_loads rest
    (translate_point_load pl ++ r.1, r.2)

/- ===== Distributed loads (second block of `_translate_loads`) ===== -/

/-- One `add_member_dist_load` call on the external solver.  The
absolute positions `x1`, `x2` involve a square root and live in ℝ. -/
structure AddMemberDistLoadCall where
  member_name : String
  direction : String
  w1 : ℚ
  w2 : ℚ
  x1 : ℝ
  x2 : ℝ
  case_ : String

/-- Euclidean distance in 3 dimensions between two nodes' coordinates. -/
noncomputable def euclid_dist (a b : ANode) : ℝ :=
  Real.sqrt (((b.x : ℝ) - (a.x : ℝ)) ^ 2 + ((b.y : ℝ) - (a.y : ℝ)) ^ 2 +
    ((b.z : ℝ) - (a.z : ℝ)) ^ 2)

/-- The distributed-load block of `_translate_loads` for one load whose
member reference resolved to `m`: look up the two endpoint nodes (a
missing node raises `KeyError`, modelled as `none`), compute the member
length `sqrt((xB-xA)^2 + (yB-yA)^2 + (zB-zA)^2)`, the absolute positions
`x1 = length * position_A / 100` and `x2 = length * position_B / 100`,
and emit one `add_member_dist_load` per axis with a nonzero start or end
magnitude, with local (`F_`) or global (`F_` upper-case) direction tags
per the load's axis frame. -/
noncomputable def translate_dist_load (nodes : List (String × ANode))
    (member_name : String) (m : AMember) (dl : ADistributedLoad) :
    Option (List AddMemberDistLoadCall) :=
  match nodes.lookup (toString m.node_A), nodes.lookup (toString m.node_B) with
  | some nA, some nB =>
    let length : ℝ :=
      Real.sqrt ((((nB.x - nA.x) ^ 2 + (nB.y - nA.y) ^ 2 + (nB.z - nA.z) ^ 2 : ℚ)) : ℝ)
    let x1 : ℝ := length * (dl.position_A : ℝ) / 100
    let x2 : ℝ := length * (dl.position_B : ℝ) / 100
    some
      ((if dl.x_mag_A ≠ 0 ∨ dl.x_mag_B ≠ 0 then
          [⟨member_name, if dl.axes = .localAxes then "Fx" else "FX",
            dl.x_mag_A, dl.x_mag_B, x1, x2, dl.load_group⟩] else []) ++
       (if dl.y_mag_A ≠ 0 ∨ dl.y_mag_B ≠ 0 then
          [⟨member_name, if dl.axes = .localAxes then "Fy" else "FY",
            dl.y_mag_A, dl.y_mag_B, x1, x2, dl.load_group⟩] else []) ++
       (if dl.z_mag_A ≠ 0 ∨ dl.z_mag_B ≠ 0 then
          [⟨member_name, if dl.axes = .localAxes then "Fz" else "FZ",
            dl.z_mag_A, dl.z_mag_B, x1, x2, dl.load_group⟩] else []))
  | _, _ => none

/-- The distributed-load loop of `_translate_loads`: resolve the member
by key (the source's fallback linear scan repeats the same key equality,
so it never finds anything the direct lookup missed); an unresolved
member warns and skips the load; a missing endpoint node raises
(`none`). -/
noncomputable def translate_distributed_loads (members : List (String × AMember))
    (nodes : List (String × ANode)) :
    List (String × ADistributedLoad) → Option (List AddMemberDistLoadCall × List Warning)
  | [] => some ([], [])
  | (load_id, dl) :: rest =>
    match members.lookup dl.member with
    | none =>
      match translate_distributed_loads members nodes rest with
      | none => none
      | some r => some (r.1, .missingMember dl.member load_id :: r.2)
    | some m =>
      match translate_dist_load nodes dl.member m dl with
      | none => none
      | some cs =>
        match translate_distributed_loads members nodes rest with
        | none => none
        | some r => some (cs ++ r.1, r.2)

/- ===== Pressure (area) loads (third block of `_translate_loads`) ===== -/

/-- One `add_quad_surface_pressure` call on the external solver. -/
structure AddQuadSurfacePressureCall where
  quad_name : String
  pressure : ℚ
  case_ : String
deriving DecidableEq

/-- The pressure-load block of `_translate_loads` for one load:
`plate_id` is a 1-based ordinal into the plate key list; in range, the
key at that position is taken, else `plate_name` stays `None`.  The
subsequent `if plate_name:` truthiness test then applies the z-axis
magnitude as a uniform surface pressure when nonzero, and warns (without
registering anything) when `plate_name` is `None` — or the empty
string. -/
def translate_pressure_load (plate_names : List String) (load_id : String)
    (pl : APressure) : List AddQuadSurfacePressureCall × List Warning :=
  let plate_name : Option String :=
    if 1 ≤ pl.plate_id ∧ pl.plate_id ≤ plate_names.length then
      plate_names[(pl.plate_id - 1).toNat]?
    else none
  match plate_name with
  | some name =>
    if name = "" then ([], [.missingPlate load_id pl.plate_id])
    else if pl.z_mag ≠ 0 then ([⟨name, pl.z_mag, pl.load_group⟩], [])
    else ([], [])
  | none => ([], [.missingPlate load_id pl.plate_id])

/-- The pressure-load loop of `_translate_loads`. -/
def translate_area_loads (plate_names : List String) :
    List (String × APressure) → List AddQuadSurfacePressureCall × List Warning
  | [] => ([], [])
  | (load_id, pl) :: rest =>
    let h := translate_pressure_load plate_names load_id pl
    let r := translate_area_loads plate_names rest
    (h.1 ++ r.1, h.2 ++ r.2)

/- ===== Load combinations (`_translate_load_combinations`) ===== -/

/-- One `add_load_combo` call on the external solver. -/
structure AddLoadComboCall where
  name : String
  factors : List (String × PyValue)
deriving DecidableEq

/-- The factor mapping built in `_translate_load_combinations`: every
entry of `model_dump()` whose key is not `name` or `criteria`. -/
def comboFactors (c : ALoadCombination) : List (String × PyValue) :=
  c.model_dump.filter (fun kv => kv.1 != "name" && kv.1 != "criteria")

/-- Model of `_translate_load_combinations`: one `add_load_combo` per combination,
registered under the source dictionary key with the filtered factor
mapping. -/
def translate_load_combinations (combos : List (String × ALoadCombination)) :
    List AddLoadComboCall :=
  combos.map (fun p => ⟨p.1, comboFactors p.2⟩)

/- ===== Result summary (`get_results_summary`, member block) ===== -/

/-- The per-(member, combination) result record built by
`get_results_summary`. -/
structure MemberResultEntry where
  max_moment : ℚ
  min_moment : ℚ
  max_shear : ℚ
  min_shear : ℚ
  max_axial : ℚ
  min_axial : ℚ
deriving DecidableEq

/-- The all-zero placeholder substituted when result extraction raises. -/
def zeroEntry : MemberResultEntry := ⟨0, 0, 0, 0, 0, 0⟩

/-- The external solver's member-result surface: each extremum query may
raise (modelled as `Except`). -/
structure PyniteMemberHandle where
  max_moment : String → String → Except String ℚ
  min_moment : String → String → Except String ℚ
  max_shear : String → String → Except String ℚ
  min_shear : String → String → Except String ℚ
  max_axial : String → Except String ℚ
  min_axial : String → Except String ℚ

/-- The body of the `try` block in `get_results_summary` for one member
and one combination: the six extremum queries, any of which may raise. -/
def memberComboQuery (m : PyniteMemberHandle) (combo : String) :
    Except String MemberResultEntry := do
  let a ← m.max_moment "Mz" combo
  let b ← m.min_moment "Mz" combo
  let c ← m.max_shear "Fy" combo
  let d ← m.min_shear "Fy" combo
  let e ← m.max_axial combo
  let f ← m.min_axial combo
  pure ⟨a, b, c, d, e, f⟩

/-- The `try`/`except` of `get_results_summary`: a raising query is
replaced by the all-zero placeholder. -/
def memberComboEntry (m : PyniteMemberHandle) (combo : String) : MemberResultEntry :=
  match memberComboQuery m combo with
  | .ok r => r
  | .error _ => zeroEntry

/-- The `load_combos` list used by `get_results_summary`: the solver's
combinations, or the default `["Combo 1"]` when there are none. -/
def effectiveCombos (combos : List String) : List String :=
  if combos = [] then ["Combo 1"] else combos

/-- The member-forces block of `get_results_summary`: for every member
and every combination, the entry produced by the guarded queries. -/
def memberResults (members : List (String × PyniteMemberHandle)) (combos : List String) :
    List (String × List (String × MemberResultEntry)) :=
  members.map (fun p =>
    (p.1, (effectiveCombos combos).map (fun combo => (combo, memberComboEntry p.2 combo))))

/- ===== Helper lemmas ===== -/

theorem char_toNat_inj {a b : Char} (h : a.toNat = b.toNat) : a = b :=
  Char.ext (UInt32.ext h)

theorem char_toNat_ofNat {n : Nat} (h : n.isValidChar) : (Char.ofNat n).toNat = n := by
  simp only [Char.ofNat, h, dif_pos, Char.ofNatAux, Char.toNat, UInt32.toNat]
  rfl

/-- The function `Char.toUpper` maps exactly an upper-case letter and its lower-case
counterpart to that upper-case letter. -/
theorem toUpper_eq_iff (u : Char) (hu : 65 ≤ u.toNat ∧ u.toNat ≤ 90) (c : Char) :
    c.toUpper = u ↔ c = u ∨ c.toNat = u.toNat + 32 := by
  by_cases h : c.toNat ≥ 97 ∧ c.toNat ≤ 122
  · have hup : c.toUpper = Char.ofNat (c.toNat - 32) := by
      simp [Char.toUpper, h]
    rw [hup]
    constructor
    · intro he
      right
      have hvalid : (c.toNat - 32).isValidChar := by
        constructor
        omega
      have h2 : (Char.ofNat (c.toNat - 32)).toNat = u.toNat := by rw [he]
      rw [char_toNat_ofNat hvalid] at h2
      omega
    · rintro (rfl | hc)
      · omega
      · have hvalid : (c.toNat - 32).isValidChar := by
          constructor
          omega
        apply char_toNat_inj
        rw [char_toNat_ofNat hvalid]
        omega
  · have hup : c.toUpper = c := by
      simp [Char.toUpper, h]
    rw [hup]
    constructor
    · exact Or.inl
    · rintro (rfl | hc)
      · rfl
      · omega

theorem parse_restraint_code_short (code : String) (h : code.length < 6) :
    parse_restraint_code code = none := by
  have h' : code.data.length < 6 := h
  rcases hl : code.data with _ | ⟨a, _ | ⟨b, _ | ⟨c, _ | ⟨d, _ | ⟨e, _ | ⟨f, rest⟩⟩⟩⟩⟩⟩ <;>
    simp_all [parse_restraint_code, String.toList] <;> omega

theorem parse_fixity_short (fixity e : String) (h : fixity.length < 6) :
    parse_fixity fixity e = [] := by
  have h' : fixity.data.length < 6 := h
  rcases hl : fixity.data with _ | ⟨a, _ | ⟨b, _ | ⟨c, _ | ⟨d, _ | ⟨x, _ | ⟨f, rest⟩⟩⟩⟩⟩⟩ <;>
    simp_all [parse_fixity, String.toList] <;> omega

/- ===== C7 ===== -/

/-- C7: a member end fixity code shorter than 6 characters produces an
empty release mapping; for a code of length at least 6 the mapping lists
the six DOFs in order `[Dx, Dy, Dz, Rx, Ry, Rz]`, each released exactly
when the character at that position is `'R'` or `'r'`. -/
theorem fixity_release_mapping (fixity e : String) :
    (fixity.length < 6 → parse_fixity fixity e = []) ∧
    (∀ c0 c1 c2 c3 c4 c5 rest, fixity.toList = c0 :: c1 :: c2 :: c3 :: c4 :: c5 :: rest →
       parse_fixity fixity e =
         [("Dx" ++ e, c0.toUpper == 'R'), ("Dy" ++ e, c1.toUpper == 'R'),
          ("Dz" ++ e, c2.toUpper == 'R'), ("Rx" ++ e, c3.toUpper == 'R'),
          ("Ry" ++ e, c4.toUpper == 'R'), ("Rz" ++ e, c5.toUpper == 'R')]) ∧
    (∀ c : Char, (c.toUpper == 'R') = true ↔ c = 'R' ∨ c = 'r') := by
  refine ⟨parse_fixity_short fixity e, ?_, ?_⟩
  · intro c0 c1 c2 c3 c4 c5 rest hl
    have hl' : fixity.data = c0 :: c1 :: c2 :: c3 :: c4 :: c5 :: rest := hl
    simp [parse_fixity, String.toList, hl']
  · intro c
    rw [beq_iff_eq, toUpper_eq_iff 'R' (by decide) c]
    constructor
    · rintro (rfl | hc)
      · exact Or.inl rfl
      · right
        exact char_toNat_inj hc
    · rintro (rfl | rfl)
      · exact Or.inl rfl
      · exact Or.inr (by decide)

/-- Witness for C7 at concrete fixity codes. -/
theorem fixity_release_mapping_witness :
    parse_fixity "FFr" "i" = [] ∧
    parse_fixity "FFrFFR" "j" =
      [("Dxj", false), ("Dyj", false), ("Dzj", true),
       ("Rxj", false), ("Ryj", false), ("Rzj", true)] := by
  constructor
  · exact (fixity_release_mapping "FFr" "i").1 (by decide)
  · rw [(fixity_release_mapping "FFrFFR" "j").2.1 'F' 'F' 'r' 'F' 'F' 'R' [] (by decide)]
    decide

/- ===== C2 ===== -/

/-- C2 (counterexample): a support with the 3-character restraint code
`"TTT"` makes the supports pass fail (an `IndexError`, modelled as
`none`), rather than silently yielding a no-op restraint set. -/
theorem short_restraint_code_fails_cex :
    translate_supports [("S1", ⟨1, "TTT"⟩)] = none ∧ ("TTT" : String).length < 6 := by
  constructor
  · rfl
  · decide

/-- C2 (amended): for every support whose restraint code is shorter than
6 characters, translating the supports fails — the decoder indexes the
first six characters unconditionally, so the pass aborts with an index
error. -/
theorem short_restraint_code_aborts_translation
    (supports : List (String × ASupport)) (support_id : String) (s : ASupport)
    (hmem : (support_id, s) ∈ supports) (hshort : s.restraint_code.length < 6) :
    translate_supports supports = none := by
  induction supports with
  | nil => cases hmem
  | cons head rest ih =>
    obtain ⟨hid, hs⟩ := head
    rcases List.mem_cons.mp hmem with heq | hmem'
    · obtain ⟨rfl, rfl⟩ := Prod.mk.injEq .. ▸ heq
      simp [translate_supports, parse_restraint_code_short _ hshort]
    · have htail := ih hmem'
      simp only [translate_supports, htail]
      cases parse_restraint_code hs.restraint_code <;> rfl

/-- Witness for the amended C2 at a concrete short code. -/
theorem short_restraint_code_aborts_translation_witness :
    ("TT" : String).length < 6 ∧
    translate_supports [("S0", ⟨2, "TTTTTT"⟩), ("S9", ⟨3, "TT"⟩)] = none :=
  ⟨by decide,
   short_restraint_code_aborts_translation _ "S9" ⟨3, "TT"⟩ (by simp) (by decide)⟩

/- ===== C3 ===== -/

/-- C3 (counterexample): a material with the explicit shear modulus `0`
does not get `0` forwarded — Python's `or` treats `0.0` as falsy, so the
derived value `E / (2*(1+ν)) = 1/2` is registered instead. -/
theorem zero_shear_modulus_not_forwarded_cex :
    (translate_materials [("M1", ⟨"steel", 1, some 0, 7, 0, none⟩)]).map
        AddMaterialCall.G = [1 / 2] ∧ (1 / 2 : ℚ) ≠ 0 := by
  constructor
  · norm_num [translate_materials, pyOrQ]
  · norm_num

/-- C3 (amended): the shear modulus registered for each material is the
derived value `E / (2*(1+ν))` when the source shear modulus is absent
(`None`) or zero, and the source value itself when it is explicit and
nonzero. -/
theorem shear_modulus_registration (mats : List (String × AMaterial))
    (mid : String) (mat : AMaterial) (hmem : (mid, mat) ∈ mats) :
    ∃ call ∈ translate_materials mats,
      call.name = mid ∧ call.E = mat.elasticity_modulus ∧
      ((mat.shear_modulus = none ∨ mat.shear_modulus = some 0 →
          call.G = mat.elasticity_modulus / (2 * (1 + mat.poissons_ratio))) ∧
       (∀ g, mat.shear_modulus = some g → g ≠ 0 → call.G = g)) := by
  refine ⟨_, List.mem_map_of_mem _ hmem, rfl, rfl, ?_, ?_⟩
  · rintro (h | h) <;> simp [pyOrQ, h]
  · intro g hg hgne
    simp [pyOrQ, hg, hgne]

/-- Witness for the amended C3 at a concrete material with an explicit
nonzero shear modulus. -/
theorem shear_modulus_registration_witness :
    ∃ call ∈ translate_materials [("M2", ⟨"c30", 200, some 75, 8, 3 / 10, some 250⟩)],
      call.name = "M2" ∧ call.E = (⟨"c30", 200, some 75, 8, 3 / 10, some 250⟩ : AMaterial).elasticity_modulus ∧
      (((⟨"c30", 200, some 75, 8, 3 / 10, some 250⟩ : AMaterial).shear_modulus = none ∨
          (⟨"c30", 200, some 75, 8, 3 / 10, some 250⟩ : AMaterial).shear_modulus = some 0 →
          call.G = (⟨"c30", 200, some 75, 8, 3 / 10, some 250⟩ : AMaterial).elasticity_modulus /
            (2 * (1 + (⟨"c30", 200, some 75, 8, 3 / 10, some 250⟩ : AMaterial).poissons_ratio))) ∧
       (∀ g, (⟨"c30", 200, some 75, 8, 3 / 10, some 250⟩ : AMaterial).shear_modulus = some g →
          g ≠ 0 → call.G = g)) :=
  shear_modulus_registration _ "M2" _ (by simp)

/- ===== C1 ===== -/

/-- C1: every extra field of a load combination (any field beyond `name`
and `criteria`) reappears with the same key and value in the factor
mapping of the `add_load_combo` call, and the combination is registered
under its source dictionary key. -/
theorem load_combo_extra_fields_forwarded (combos : List (String × ALoadCombination))
    (combo_id : String) (c : ALoadCombination) (hmem : (combo_id, c) ∈ combos)
    (k : String) (v : PyValue) (hkv : (k, v) ∈ c.extra)
    (hk1 : k ≠ "name") (hk2 : k ≠ "criteria") :
    ∃ call ∈ translate_load_combinations combos,
      call.name = combo_id ∧ (k, v) ∈ call.factors := by
  refine ⟨_, List.mem_map_of_mem _ hmem, rfl, ?_⟩
  apply List.mem_filter.mpr
  refine ⟨List.mem_cons_of_mem _ (List.mem_cons_of_mem _ hkv), ?_⟩
  simp [hk1, hk2]

/-- Witness for C1 at a concrete combination with one extra field. -/
theorem load_combo_extra_fields_forwarded_witness :
    ∃ call ∈ translate_load_combinations
        [("LC1", ⟨"1.4D", "strength", [("DL", .num (7 / 5))]⟩)],
      call.name = "LC1" ∧ ("DL", PyValue.num (7 / 5)) ∈ call.factors :=
  load_combo_extra_fields_forwarded _ "LC1"
    ⟨"1.4D", "strength", [("DL", .num (7 / 5))]⟩ (by simp) "DL" (.num (7 / 5))
    (by simp) (by decide) (by decide)

/- ===== C5 ===== -/

/-- A list of length 4 is enumerated by its first four entries. -/
theorem list_get_four {α : Type} (l : List α) (h : l.length = 4) :
    [l.get ⟨0, by omega⟩, l.get ⟨1, by omega⟩, l.get ⟨2, by omega⟩,
     l.get ⟨3, by omega⟩] = l := by
  obtain ⟨a, t0, rfl⟩ : ∃ a t0, l = a :: t0 := by
    cases l with
    | nil => simp at h
    | cons a t => exact ⟨a, t, rfl⟩
  obtain ⟨b, c, d, rfl⟩ : ∃ b c d, t0 = [b, c, d] := by
    apply List.length_eq_three.mp
    simpa using h
  rfl

/-- Every `add_quad` call name produced by the plate pass is one of the
source plate keys. -/
theorem translate_plates_name_mem (plates : List (String × APlate)) :
    ∀ call ∈ (translate_plates plates).1, call.name ∈ plates.map Prod.fst := by
  induction plates with
  | nil => intro call hc; cases hc
  | cons head rest ih =>
    obtain ⟨pid, p⟩ := head
    intro call hc
    rw [List.map_cons]
    by_cases h : (p.nodes.map toString).length = 4
    · rw [translate_plates, dif_pos h] at hc
      rcases List.mem_cons.mp hc with hq | hc
      · subst hq
        exact List.mem_cons_self _ _
      · exact List.mem_cons_of_mem _ (ih call hc)
    · rw [translate_plates, dif_neg h] at hc
      exact List.mem_cons_of_mem _ (ih call hc)

/-- C5: a plate whose node list does not have exactly 4 entries is
skipped — no `add_quad` call carries its key, and a warning recording
its key and node count is emitted — while a 4-node plate yields an
`add_quad` call with the node names in listed order.  The plate pass is
a total function, so it never raises. -/
theorem plates_wrong_node_count_skipped (plates : List (String × APlate))
    (hnd : (plates.map Prod.fst).Nodup) (pid : String) (p : APlate)
    (hmem : (pid, p) ∈ plates) :
    (p.nodes.length ≠ 4 →
       (∀ call ∈ (translate_plates plates).1, call.name ≠ pid) ∧
       Warning.plate pid p.nodes.length ∈ (translate_plates plates).2) ∧
    (p.nodes.length = 4 →
       ∃ call ∈ (translate_plates plates).1,
         call.name = pid ∧
         [call.i_node, call.j_node, call.m_node, call.n_node] = p.nodes.map toString) := by
  induction plates with
  | nil => cases hmem
  | cons head rest ih =>
    obtain ⟨qid, q⟩ := head
    have hnd2 := List.nodup_cons.mp ((List.map_cons Prod.fst (qid, q) rest) ▸ hnd)
    have hnd' : (rest.map Prod.fst).Nodup := hnd2.2
    have hqid : qid ∉ rest.map Prod.fst := hnd2.1
    rcases List.mem_cons.mp hmem with heq | hmem'
    · obtain ⟨rfl, rfl⟩ := Prod.mk.injEq .. ▸ heq
      constructor
      · intro hlen
        have hmap : ¬(p.nodes.map toString).length = 4 := by
          rw [List.length_map]; exact hlen
        rw [translate_plates, dif_neg hmap]
        refine ⟨?_, ?_⟩
        · intro call hc hname
          exact hqid (hname ▸ translate_plates_name_mem rest call hc)
        · rw [← List.length_map p.nodes toString]
          exact List.mem_cons_self _ _
      · intro hlen
        have hmap : (p.nodes.map toString).length = 4 := by
          rw [List.length_map]; exact hlen
        rw [translate_plates, dif_pos hmap]
        refine ⟨_, List.mem_cons_self _ _, rfl, ?_⟩
        exact list_get_four (p.nodes.map toString) hmap
    · have hpidrest : pid ∈ rest.map Prod.fst :=
        List.mem_map_of_mem Prod.fst hmem'
      have hne : qid ≠ pid := fun h => hqid (h ▸ hpidrest)
      have ihr := ih hnd' hmem'
      constructor
      · intro hlen
        obtain ⟨ih1, ih2⟩ := ihr.1 hlen
        by_cases hq4 : (q.nodes.map toString).length = 4
        · rw [translate_plates, dif_pos hq4]
          refine ⟨?_, ih2⟩
          intro call hc
          rcases List.mem_cons.mp hc with hqc | hc
          · subst hqc
            exact hne
          · exact ih1 call hc
        · rw [translate_plates, dif_neg hq4]
          exact ⟨ih1, List.mem_cons_of_mem _ ih2⟩
      · intro hlen
        obtain ⟨call, hcall, hprop⟩ := ihr.2 hlen
        by_cases hq4 : (q.nodes.map toString).length = 4
        · rw [translate_plates, dif_pos hq4]
          exact ⟨call, List.mem_cons_of_mem _ hcall, hprop⟩
        · rw [translate_plates, dif_neg hq4]
          exact ⟨call, hcall, hprop⟩

/-- Witness for C5: one 3-node plate (skipped with a warning) and one
4-node plate (registered in listed order). -/
theorem plates_wrong_node_count_skipped_witness :
    ((3 : Nat) ≠ 4 →
       (∀ call ∈ (translate_plates
           [("Q1", ⟨[1, 2, 3], 9, 1 / 5⟩), ("Q2", ⟨[1, 2, 3, 4], 9, 1 / 5⟩)]).1,
         call.name ≠ "Q1") ∧
       Warning.plate "Q1" 3 ∈ (translate_plates
           [("Q1", ⟨[1, 2, 3], 9, 1 / 5⟩), ("Q2", ⟨[1, 2, 3, 4], 9, 1 / 5⟩)]).2) ∧
    ((3 : Nat) = 4 →
       ∃ call ∈ (translate_plates
           [("Q1", ⟨[1, 2, 3], 9, 1 / 5⟩), ("Q2", ⟨[1, 2, 3, 4], 9, 1 / 5⟩)]).1,
         call.name = "Q1" ∧
         [call.i_node, call.j_node, call.m_node, call.n_node] =
           ([1, 2, 3] : List Int).map toString) :=
  plates_wrong_node_count_skipped
    [("Q1", ⟨[1, 2, 3], 9, 1 / 5⟩), ("Q2", ⟨[1, 2, 3, 4], 9, 1 / 5⟩)]
    (by decide) "Q1" ⟨[1, 2, 3], 9, 1 / 5⟩ (by simp)

/- ===== C6 ===== -/

/-- C6 (counterexample): a plate stored under the empty-string key is in
range for `plate_id = 1`, yet a pressure load with nonzero z-magnitude
on it registers nothing and warns — Python's `if plate_name:` is falsy
for the empty string. -/
theorem pressure_load_empty_key_skipped_cex :
    translate_pressure_load [""] "P1" ⟨"W", 1, 0, 0, 5⟩ =
      ([], [.missingPlate "P1" 1]) ∧
    (1 ≤ (1 : Int) ∧ (1 : Int) ≤ ([""] : List String).length) ∧ (5 : ℚ) ≠ 0 := by
  refine ⟨?_, by decide, by norm_num⟩
  rfl

/-- C6 (amended): a pressure load whose 1-based `plate_id` is out of
range registers nothing and only warns (no exception); an in-range
`plate_id` resolves the plate by definition-order position, and — as
long as the resolved key is not the empty string — applies exactly the
z-axis magnitude as a uniform surface pressure when it is nonzero, and
nothing when it is zero. -/
theorem pressure_load_resolution (plate_names : List String) (load_id : String)
    (pl : APressure) :
    (¬(1 ≤ pl.plate_id ∧ pl.plate_id ≤ plate_names.length) →
       translate_pressure_load plate_names load_id pl =
         ([], [.missingPlate load_id pl.plate_id])) ∧
    (∀ name, 1 ≤ pl.plate_id → pl.plate_id ≤ plate_names.length →
       plate_names[(pl.plate_id - 1).toNat]? = some name → name ≠ "" →
       translate_pressure_load plate_names load_id pl =
         ((if pl.z_mag ≠ 0 then [⟨name, pl.z_mag, pl.load_group⟩] else []), [])) := by
  constructor
  · intro h
    simp only [translate_pressure_load, if_neg h]
  · intro name h1 h2 hget hne
    have hrange : 1 ≤ pl.plate_id ∧ pl.plate_id ≤ (plate_names.length : Int) := ⟨h1, h2⟩
    simp only [translate_pressure_load, if_pos hrange, hget, if_neg hne]
    split_ifs <;> rfl

/-- Witness for the amended C6: an out-of-range load warns; an in-range
load applies the z-magnitude to the positionally resolved plate. -/
theorem pressure_load_resolution_witness :
    translate_pressure_load ["PA", "PB"] "P3" ⟨"W", 3, 0, 0, 5⟩ =
      ([], [.missingPlate "P3" 3]) ∧
    translate_pressure_load ["PA", "PB"] "P4" ⟨"W", 2, 0, 0, 5⟩ =
      ([⟨"PB", 5, "W"⟩], []) := by
  constructor
  · exact (pressure_load_resolution ["PA", "PB"] "P3" ⟨"W", 3, 0, 0, 5⟩).1 (by decide)
  · rw [(pressure_load_resolution ["PA", "PB"] "P4" ⟨"W", 2, 0, 0, 5⟩).2 "PB"
      (by decide) (by decide) rfl (by decide)]
    decide

/- ===== C8 ===== -/

/-- C8: a node-referencing point load registers exactly one nodal load
per nonzero magnitude component — with the force or moment direction tag
of the matching axis per the `type` tag, tagged with the load's group —
and nothing for zero components; in particular an all-zero point load
registers no nodal loads. -/
theorem point_load_calls_per_nonzero_component (pl : APointLoad) (s : String)
    (hn : pl.node = some s) (hs : s ≠ "") :
    (translate_point_load pl).length =
      ((if pl.x_mag ≠ 0 then 1 else 0) + (if pl.y_mag ≠ 0 then 1 else 0) +
       (if pl.z_mag ≠ 0 then 1 else 0)) ∧
    (∀ c ∈ translate_point_load pl,
       c.node_name = s ∧ c.case_ = pl.load_group ∧ c.P ≠ 0) ∧
    (pl.x_mag ≠ 0 →
       (⟨s, (match pl.type with | .n => "FX" | .m => "MX"), pl.x_mag, pl.load_group⟩ :
         AddNodeLoadCall) ∈ translate_point_load pl) ∧
    (pl.y_mag ≠ 0 →
       (⟨s, (match pl.type with | .n => "FY" | .m => "MY"), pl.y_mag, pl.load_group⟩ :
         AddNodeLoadCall) ∈ translate_point_load pl) ∧
    (pl.z_mag ≠ 0 →
       (⟨s, (match pl.type with | .n => "FZ" | .m => "MZ"), pl.z_mag, pl.load_group⟩ :
         AddNodeLoadCall) ∈ translate_point_load pl) ∧
    (pl.x_mag = 0 ∧ pl.y_mag = 0 ∧ pl.z_mag = 0 → translate_point_load pl = []) := by
  obtain ⟨lg, ty, nd, mb, x, y, z⟩ := pl
  simp only at hn
  subst hn
  simp only [translate_point_load, if_neg hs]
  cases ty <;>
    refine ⟨?_, ?_, ?_, ?_, ?_, ?_⟩ <;>
    split_ifs <;>
    simp_all

/-- Witness for C8 at a concrete force load with two nonzero
components. -/
theorem point_load_calls_witness :
    (translate_point_load ⟨"L", .n, some "N1", none, 3, 0, -2⟩).length =
      ((if (3 : ℚ) ≠ 0 then 1 else 0) + (if (0 : ℚ) ≠ 0 then 1 else 0) +
       (if (-2 : ℚ) ≠ 0 then 1 else 0)) ∧
    (∀ c ∈ translate_point_load ⟨"L", .n, some "N1", none, 3, 0, -2⟩,
       c.node_name = "N1" ∧ c.case_ = "L" ∧ c.P ≠ 0) ∧
    ((3 : ℚ) ≠ 0 →
       (⟨"N1", "FX", 3, "L"⟩ : AddNodeLoadCall) ∈
         translate_point_load ⟨"L", .n, some "N1", none, 3, 0, -2⟩) ∧
    ((0 : ℚ) ≠ 0 →
       (⟨"N1", "FY", 0, "L"⟩ : AddNodeLoadCall) ∈
         translate_point_load ⟨"L", .n, some "N1", none, 3, 0, -2⟩) ∧
    ((-2 : ℚ) ≠ 0 →
       (⟨"N1", "FZ", -2, "L"⟩ : AddNodeLoadCall) ∈
         translate_point_load ⟨"L", .n, some "N1", none, 3, 0, -2⟩) ∧
    ((3 : ℚ) = 0 ∧ (0 : ℚ) = 0 ∧ (-2 : ℚ) = 0 →
       translate_point_load ⟨"L", .n, some "N1", none, 3, 0, -2⟩ = []) :=
  point_load_calls_per_nonzero_component _ "N1" rfl (by decide)

/- ===== C10 ===== -/

/-- The point-load loop never emits a warning. -/
theorem translate_point_loads_no_warnings (loads : List (String × APointLoad)) :
    (translate_point_loads loads).2 = [] := by
  induction loads with
  | nil => rfl
  | cons head rest ih => simp [translate_point_loads, ih]

/-- C10: a point load whose node reference is absent (`None` or the
empty string) — even one carrying only a member reference — registers no
nodal load and produces no diagnostic: it is silently dropped. -/
theorem nodeless_point_load_dropped (loads : List (String × APointLoad))
    (load_id : String) (pl : APointLoad) (hmem : (load_id, pl) ∈ loads)
    (hn : pl.node = none ∨ pl.node = some "") :
    translate_point_load pl = [] ∧ (translate_point_loads loads).2 = [] := by
  refine ⟨?_, translate_point_loads_no_warnings loads⟩
  rcases hn with h | h <;> simp [translate_point_load, h]

/-- Witness for C10 at a member-only point load. -/
theorem nodeless_point_load_dropped_witness :
    translate_point_load ⟨"L", .n, none, some "M7", 3, 1, -2⟩ = [] ∧
    (translate_point_loads [("PL9", ⟨"L", .n, none, some "M7", 3, 1, -2⟩)]).2 = [] :=
  nodeless_point_load_dropped [("PL9", ⟨"L", .n, none, some "M7", 3, 1, -2⟩)]
    "PL9" ⟨"L", .n, none, some "M7", 3, 1, -2⟩ (by simp) (Or.inl rfl)

/- ===== C9 ===== -/

/-- C9: if the guarded extremum queries for a member under a combination
raise, the summary entry for that (member, combination) pair is the
all-zero placeholder, and the error does not escape `get_results_summary`
(the member-results pass is a total function that still produces an
entry for the pair). -/
theorem member_result_error_zero_placeholder
    (members : List (String × PyniteMemberHandle)) (combos : List String)
    (member_name : String) (m : PyniteMemberHandle) (combo : String) (err : String)
    (hmem : (member_name, m) ∈ members) (hc : combo ∈ effectiveCombos combos)
    (herr : memberComboQuery m combo = .error err) :
    ∃ entries, (member_name, entries) ∈ memberResults members combos ∧
      (combo, zeroEntry) ∈ entries := by
  refine ⟨_, List.mem_map_of_mem _ hmem, ?_⟩
  have hz : memberComboEntry m combo = zeroEntry := by
    simp [memberComboEntry, herr]
  have h2 : (combo, memberComboEntry m combo) ∈
      (effectiveCombos combos).map (fun c2 => (c2, memberComboEntry m c2)) :=
    List.mem_map_of_mem _ hc
  rw [hz] at h2
  exact h2

/-- Witness for C9: a handle whose first extremum query raises yields
the all-zero entry. -/
theorem member_result_error_zero_placeholder_witness :
    ∃ entries,
      ("M1", entries) ∈ memberResults
        [("M1", ⟨fun _ _ => .error "unsupported combo", fun _ _ => .ok 1,
          fun _ _ => .ok 2, fun _ _ => .ok 3, fun _ => .ok 4, fun _ => .ok 5⟩)]
        ["1.4D"] ∧
      ("1.4D", zeroEntry) ∈ entries :=
  member_result_error_zero_placeholder _ ["1.4D"] "M1"
    ⟨fun _ _ => .error "unsupported combo", fun _ _ => .ok 1,
     fun _ _ => .ok 2, fun _ _ => .ok 3, fun _ => .ok 4, fun _ => .ok 5⟩
    "1.4D" "unsupported combo" (by simp) (by simp [effectiveCombos]) rfl

/- ===== C4 ===== -/

/-- C4: for a distributed load whose member reference resolved (with
endpoint nodes present), every `add_member_dist_load` call emitted for
it carries the absolute positions `x1 = length * position_A / 100` and
`x2 = length * position_B / 100`, where `length` is the 3-dimensional
Euclidean distance between the member's endpoint coordinates. -/
theorem dist_load_positions_from_member_length (nodes : List (String × ANode))
    (member_name : String) (m : AMember) (dl : ADistributedLoad)
    (nA nB : ANode) (c : AddMemberDistLoadCall)
    (hA : nodes.lookup (toString m.node_A) = some nA)
    (hB : nodes.lookup (toString m.node_B) = some nB)
    (hc : c ∈ (translate_dist_load nodes member_name m dl).getD []) :
    c.x1 = euclid_dist nA nB * (dl.position_A : ℝ) / 100 ∧
    c.x2 = euclid_dist nA nB * (dl.position_B : ℝ) / 100 := by
  have hdist : Real.sqrt ((((nB.x - nA.x) ^ 2 + (nB.y - nA.y) ^ 2 +
      (nB.z - nA.z) ^ 2 : ℚ)) : ℝ) = euclid_dist nA nB := by
    unfold euclid_dist
    congr 1
    push_cast
    ring
  rw [translate_dist_load, hA, hB] at hc
  simp only [Option.getD_some] at hc
  rcases List.mem_append.mp hc with hc' | hc'
  · rcases List.mem_append.mp hc' with hc2 | hc2 <;>
      split_ifs at hc2 <;>
        first
        | (rcases List.mem_singleton.mp hc2 with rfl
           exact ⟨by rw [← hdist], by rw [← hdist]⟩)
        | cases hc2
  · split_ifs at hc' <;>
      first
      | (rcases List.mem_singleton.mp hc' with rfl
         exact ⟨by rw [← hdist], by rw [← hdist]⟩)
      | cases hc'

/-- Witness for C4: a concrete 3-4-5 member with a distributed load from
20% to 80% of its length. -/
theorem dist_load_positions_from_member_length_witness :
    (AddMemberDistLoadCall.mk "M1" "FX" 1 2
        (Real.sqrt ((((3 - 0 : ℚ) ^ 2 + (4 - 0 : ℚ) ^ 2 + (0 - 0 : ℚ) ^ 2 : ℚ)) : ℝ) *
          ((20 : ℚ) : ℝ) / 100)
        (Real.sqrt ((((3 - 0 : ℚ) ^ 2 + (4 - 0 : ℚ) ^ 2 + (0 - 0 : ℚ) ^ 2 : ℚ)) : ℝ) *
          ((80 : ℚ) : ℝ) / 100)
        "D").x1 =
      euclid_dist ⟨0, 0, 0⟩ ⟨3, 4, 0⟩ * ((20 : ℚ) : ℝ) / 100 ∧
    (AddMemberDistLoadCall.mk "M1" "FX" 1 2
        (Real.sqrt ((((3 - 0 : ℚ) ^ 2 + (4 - 0 : ℚ) ^ 2 + (0 - 0 : ℚ) ^ 2 : ℚ)) : ℝ) *
          ((20 : ℚ) : ℝ) / 100)
        (Real.sqrt ((((3 - 0 : ℚ) ^ 2 + (4 - 0 : ℚ) ^ 2 + (0 - 0 : ℚ) ^ 2 : ℚ)) : ℝ) *
          ((80 : ℚ) : ℝ) / 100)
        "D").x2 =
      euclid_dist ⟨0, 0, 0⟩ ⟨3, 4, 0⟩ * ((80 : ℚ) : ℝ) / 100 :=
  dist_load_positions_from_member_length
    [("1", ⟨0, 0, 0⟩), ("2", ⟨3, 4, 0⟩)] "M1" ⟨1, 2, 5, 0, "FFFFFF", "FFFFFF"⟩
    ⟨"D", .globalAxes, "M1", 1, 0, 0, 2, 0, 0, 20, 80⟩ ⟨0, 0, 0⟩ ⟨3, 4, 0⟩ _
    rfl rfl (List.mem_singleton.mpr rfl)
